import Mathlib

/-
Verification development for the request-scoped canonical logging / tracing
core of the insurflow repository (the tracing modules: context management,
canonical logger, withTracing wrapper, and the module-level Logger class
backed by the remote exporter).

JavaScript objects are modelled as association lists where a later binding
for a key shadows an earlier one; this matches both object-spread and
Object.assign semantics for the observable key-value mapping. The
AsyncLocalStorage store is passed explicitly: every store-reading function
takes an extra argument of type Option RequestContext. Wall-clock reads
(Date.now) are passed as explicit Int arguments.
-/

namespace Insurflow

/-- JSON-like attribute value as stored in log events and context attributes. -/
inductive JVal where
  | s (v : String)
  | n (v : Int)
  | b (v : Bool)
  | null
  | undef
  deriving DecidableEq

/-- JavaScript object modelled as an association list; a later binding for a
key shadows an earlier one, matching spread and Object.assign semantics. -/
abbrev Object := List (String × JVal)

/-- Lookup of a key in an object: the value of the last binding for the key,
matching JavaScript property semantics after spreads and assigns. -/
def getK (o : Object) (k : String) : Option JVal :=
  o.foldl (fun acc p => if p.1 = k then some p.2 else acc) none

/-- Right-biased recursive description of the last written value for a key in
a write sequence: the value of the last pair whose key matches. -/
def lastWrite : Object → String → Option JVal
  | [], _ => none
  | p :: rest, k =>
    match lastWrite rest k with
    | some v => some v
    | none => if p.1 = k then some p.2 else none

/-- String coercion applied by the wrapper when mirroring attribute values
onto the span, modelling the JavaScript String(value) conversion. -/
def jvalStr : JVal → String
  | .s v => v
  | .n v => toString v
  | .b true => "true"
  | .b false => "false"
  | .null => "null"
  | .undef => "undefined"

/-- Conversion of an optional string field to the stored object value; an
absent field is stored as the JavaScript undefined value. -/
def optStr : Option String → JVal
  | some v => JVal.s v
  | none => JVal.undef

/-- Request context record, translated field by field from the RequestContext
interface of the context module. -/
structure RequestContext where
  requestId : String
  traceId : String
  spanId : String
  userId : Option String
  sessionId : Option String
  method : String
  endpoint : String
  startTime : Int
  attributes : Object
  deriving DecidableEq

/-- Options accepted by createRequestContext, translated from
CreateRequestContextOptions. -/
structure CreateRequestContextOptions where
  method : String
  endpoint : String
  requestId : Option String
  userId : Option String
  sessionId : Option String
  initialAttributes : Option Object
  deriving DecidableEq

/-- Translation of getRequestContext: returns the AsyncLocalStorage store. -/
def getRequestContext (store : Option RequestContext) : Option RequestContext :=
  store

/-- Translation of addRequestAttribute: writes one attribute into the current
context when one exists, and is a no-op on an absent store. -/
def addRequestAttribute (k : String) (v : JVal)
    (store : Option RequestContext) : Option RequestContext :=
  match store with
  | none => none
  | some ctx => some { ctx with attributes := ctx.attributes ++ [(k, v)] }

/-- Translation of addRequestAttributes: Object.assign of the given
attributes into the current context when one exists, no-op otherwise. -/
def addRequestAttributes (attrs : Object)
    (store : Option RequestContext) : Option RequestContext :=
  match store with
  | none => none
  | some ctx => some { ctx with attributes := ctx.attributes ++ attrs }

/-- Translation of setUserContext: sets the user id, and the session id only
when the passed session id is truthy (present and non-empty); no-op on an
absent store. -/
def setUserContext (userId : String) (sessionId : Option String)
    (store : Option RequestContext) : Option RequestContext :=
  match store with
  | none => none
  | some ctx =>
    some { ctx with
      userId := some userId
      sessionId :=
        match sessionId with
        | some sid => if sid = "" then ctx.sessionId else some sid
        | none => ctx.sessionId }

/-- Translation of updateTraceContext: stamps the trace and span ids of the span
into the current context when one exists. -/
def updateTraceContext (traceId spanId : String)
    (store : Option RequestContext) : Option RequestContext :=
  match store with
  | none => none
  | some ctx => some { ctx with traceId := traceId, spanId := spanId }

/-- Translation of getRequestDuration: wall clock minus the context start
time, and 0 when called outside any context scope. -/
def getRequestDuration (store : Option RequestContext) (now : Int) : Int :=
  match store with
  | none => 0
  | some ctx => now - ctx.startTime

/-- Translation of createRequestContext. The generated request id (randomUUID
in the source) and the ambient active-span correlation ids are passed in
explicitly; the source falls back to the no-trace and no-span sentinels when
no span is active. -/
def createRequestContext (options : CreateRequestContextOptions)
    (traceCtx : Option (String × String)) (genId : String) (now : Int) :
    RequestContext :=
  { requestId := options.requestId.getD genId
    traceId := ((traceCtx.map Prod.fst).getD "no-trace")
    spanId := ((traceCtx.map Prod.snd).getD "no-span")
    userId := options.userId
    sessionId := options.sessionId
    method := options.method
    endpoint := options.endpoint
    startTime := now
    attributes := options.initialAttributes.getD [] }

/-- Log severity levels of the canonical logger. -/
inductive LogLevel where
  | debug
  | info
  | warn
  | error
  | fatal
  deriving DecidableEq

/-- Textual form of a level as stored in the level field of an event. -/
def LogLevel.toText : LogLevel → String
  | .debug => "debug"
  | .info => "info"
  | .warn => "warn"
  | .error => "error"
  | .fatal => "fatal"

/-- Named base fields of a canonical event, in the order they appear in the
object literal of buildCanonicalEvent, before the attribute spreads. -/
def canonicalBaseFields (level : LogLevel) (message : String)
    (ctx : RequestContext) (store : Option RequestContext) (now : Int) :
    Object :=
  [("timestamp", JVal.s (toString now)),
   ("duration_ms", JVal.n (getRequestDuration store now)),
   ("request_id", JVal.s ctx.requestId),
   ("trace_id", JVal.s ctx.traceId),
   ("span_id", JVal.s ctx.spanId),
   ("user_id", optStr ctx.userId),
   ("session_id", optStr ctx.sessionId),
   ("method", JVal.s ctx.method),
   ("endpoint", JVal.s ctx.endpoint),
   ("level", JVal.s level.toText),
   ("message", JVal.s message)]

/-- Translation of buildCanonicalEvent: the named base fields, then the
accumulated context attributes, then the additional data, later spreads
shadowing earlier bindings. -/
def buildCanonicalEvent (level : LogLevel) (message : String)
    (ctx : RequestContext) (additionalData : Object)
    (store : Option RequestContext) (now : Int) : Object :=
  canonicalBaseFields level message ctx store now ++ ctx.attributes ++
    additionalData

/-- Relevant process environment for sink selection: whether NODE_ENV is
development and whether the OTLP exporter endpoint is configured. -/
structure Env where
  development : Bool
  otlpEndpoint : Bool
  deriving DecidableEq

/-- Translation of isConsoleOnly: development without a configured OTLP
exporter endpoint. -/
def isConsoleOnly (e : Env) : Bool :=
  e.development && !e.otlpEndpoint

/-- Result of one emitLog call: the built event and which sinks received it. -/
structure EmitLogOut where
  event : Object
  toConsole : Bool
  toOTel : Bool
  deriving DecidableEq

/-- Degraded event built by emitLog when no request context is available,
with sentinel values for all identity and correlation fields. -/
def simpleNoContextEvent (level : LogLevel) (message : String) (data : Object)
    (now : Int) : Object :=
  [("timestamp", JVal.s (toString now)),
   ("duration_ms", JVal.n 0),
   ("request_id", JVal.s "no-context"),
   ("trace_id", JVal.s "no-trace"),
   ("span_id", JVal.s "no-span"),
   ("method", JVal.s "N/A"),
   ("endpoint", JVal.s "N/A"),
   ("level", JVal.s level.toText),
   ("message", JVal.s message)] ++ data

/-- Translation of emitLog: without a context the degraded event goes to the
console only; with a context the canonical event goes to the console exactly
in development and to the OTLP sink exactly when not console-only. -/
def emitLog (level : LogLevel) (message : String) (data : Object)
    (store : Option RequestContext) (now : Int) (env : Env) : EmitLogOut :=
  match getRequestContext store with
  | none =>
    { event := simpleNoContextEvent level message data now
      toConsole := true
      toOTel := false }
  | some ctx =>
    { event := buildCanonicalEvent level message ctx data store now
      toConsole := isConsoleOnly env || env.development
      toOTel := !isConsoleOnly env }

/-- Severity tiering of emitRequestLog: error at status at least 500, warn at
status at least 400, info otherwise. -/
def requestLogLevel (statusCode : Int) : LogLevel :=
  if statusCode ≥ 500 then LogLevel.error
  else if statusCode ≥ 400 then LogLevel.warn
  else LogLevel.info

/-- Translation of emitRequestLog: returns none (after a console warning in
the source) when no request context is active, otherwise emits through
emitLog with the tiered level and the status code as additional data. -/
def emitRequestLog (statusCode : Int) (message : String)
    (store : Option RequestContext) (now : Int) (env : Env) :
    Option EmitLogOut :=
  match getRequestContext store with
  | none => none
  | some _ =>
    some (emitLog (requestLogLevel statusCode) message
      [("status_code", JVal.n statusCode)] store now env)

/-- Computation reading the AsyncLocalStorage store, modelled as a function
of the ambient store; AsyncLocalStorage.run installs a new store for the
dynamic extent of the callback and the previous store is visible again
afterwards. -/
def ALSComp (α : Type) : Type :=
  Option RequestContext → α

/-- Translation of runInContext: requestContextStorage.run installs the given
context as the store for the dynamic extent of the callback. -/
def runInContext {α : Type} (ctx : RequestContext) (fn : ALSComp α) :
    ALSComp α :=
  fun _ => fn (some ctx)

/-- Reading the current store inside a computation. -/
def alsGet : ALSComp (Option RequestContext) :=
  fun store => store

/-- Sequencing of store-reading computations: both run under the same
ambient store. -/
def alsBind {α β : Type} (m : ALSComp α) (f : α → ALSComp β) : ALSComp β :=
  fun store => f (m store) store

/-- Lifting a pure value into a store-reading computation. -/
def alsPure {α : Type} (x : α) : ALSComp α :=
  fun _ => x

/-- Translation of withRequestContext: creates a fresh context from the
options and runs the callback with it installed as the current store. -/
def withRequestContextM {α : Type} (options : CreateRequestContextOptions)
    (traceCtx : Option (String × String)) (genId : String) (now : Int)
    (fn : ALSComp α) : ALSComp α :=
  runInContext (createRequestContext options traceCtx genId now) fn

/-- Serialized JavaScript Error value: name, message and optional stack. -/
structure ErrorV where
  name : String
  message : String
  stack : Option String
  deriving DecidableEq

/-- Value thrown by a handler: either an Error object or a non-Error value
carried by its string form. -/
inductive Thrown where
  | errObj (e : ErrorV)
  | nonError (v : String)
  deriving DecidableEq

/-- Coercion applied by the catch branch of the wrapper: an Error instance is kept,
anything else is wrapped as new Error(String(error)). -/
def coerceError : Thrown → ErrorV
  | .errObj e => e
  | .nonError v => { name := "Error", message := v, stack := none }

/-- Span operations recorded against the OpenTelemetry span. -/
inductive SpanOp where
  | setAttr (k : String) (v : JVal)
  | setStatusOk
  | setStatusError (message : String)
  | recordException (e : ErrorV)
  | endSpan
  deriving DecidableEq

/-- Whether a span operation is the span-end call. -/
def SpanOp.isEnd : SpanOp → Bool
  | .endSpan => true
  | _ => false

/-- Number of span-end calls in a span operation trace. -/
def countEnd (ops : List SpanOp) : Nat :=
  (ops.filter SpanOp.isEnd).length

/-- Observable actions a handler can take through the TracingContext it is
given: the addAttribute and addAttributes handles, and direct mutation of the
ctx.request record it received. -/
inductive HandlerAct where
  | addAttr (k : String) (v : JVal)
  | addAttrs (o : Object)
  | mutReq (o : Object)
  deriving DecidableEq

/-- Whether an action is a direct mutation of the handed-out request record. -/
def HandlerAct.isMutReq : HandlerAct → Bool
  | .mutReq _ => true
  | _ => false

/-- Attribute pairs an action writes into the ambient context. -/
def actAttrPairs : HandlerAct → Object
  | .addAttr k v => [(k, v)]
  | .addAttrs o => o
  | .mutReq _ => []

/-- All attribute pairs a sequence of actions writes into the ambient
context, in order. -/
def actsAttrPairs : List HandlerAct → Object
  | [] => []
  | act :: rest => actAttrPairs act ++ actsAttrPairs rest

/-- Keys a sequence of actions writes into the ambient context. -/
def actsWriteKeys (acts : List HandlerAct) : List String :=
  (actsAttrPairs acts).map Prod.fst

/-- Outcome of the wrapped handler: a response with its status code and
content-length header, or a thrown value. -/
inductive Outcome where
  | ret (status : Int) (contentLength : Option String)
  | raise (t : Thrown)
  deriving DecidableEq

/-- Behavioural model of a handler: the context actions it performs, then its
outcome. -/
structure HandlerModel where
  acts : List HandlerAct
  outcome : Outcome
  deriving DecidableEq

/-- Handler with every direct mutation of the handed-out request record
erased, keeping only the actions that reach the ambient context. -/
def pruneMutReq (handler : HandlerModel) : HandlerModel :=
  { acts := handler.acts.filter (fun x => !(x.isMutReq))
    outcome := handler.outcome }

/-- User info produced by the session identity resolver. -/
structure UserInfo where
  userId : String
  sessionId : String
  email : Option String
  name : Option String
  deriving DecidableEq

/-- Result of setUserContextFromSession: a resolved optional user, or a
thrown resolution failure. -/
inductive IdentityRes where
  | resolved (u : Option UserInfo)
  | failed (t : Thrown)
  deriving DecidableEq

/-- Options of the tracing wrapper. -/
structure TracingOptions where
  extractUser : Bool
  spanName : Option String
  deriving DecidableEq

/-- Inputs of one invocation of a withTracing-wrapped handler: the inbound
request descriptors, the correlation ids of the span, the generated request id,
the injected clock readings (context creation and emission), the process
environment, the identity-resolution result and the wrapper options. -/
structure TracingArgs where
  method : String
  pathname : String
  url : String
  userAgent : Option String
  spanTraceId : String
  spanSpanId : String
  genId : String
  tStart : Int
  tEmit : Int
  env : Env
  identity : IdentityRes
  opts : TracingOptions
  deriving DecidableEq

/-- Initial attributes seeded by the wrapper: the inbound URL and user-agent
header (null when the header is absent). -/
def initialRequestAttributes (a : TracingArgs) : Object :=
  [("http.url", JVal.s a.url),
   ("http.user_agent",
     match a.userAgent with
     | some ua => JVal.s ua
     | none => JVal.null)]

/-- Ambient request context as established by the wrapper: created by
withRequestContext from the method, pathname and initial attributes, then
stamped by updateTraceContext with the ids of the span. -/
def wrapperBaseContext (a : TracingArgs) : RequestContext :=
  let ctx0 := createRequestContext
    { method := a.method
      endpoint := a.pathname
      requestId := none
      userId := none
      sessionId := none
      initialAttributes := some (initialRequestAttributes a) }
    (some (a.spanTraceId, a.spanSpanId)) a.genId a.tStart
  (updateTraceContext a.spanTraceId a.spanSpanId (some ctx0)).getD ctx0

/-- Identity-extraction phase of the wrapper: on a resolution failure the
error is swallowed and a warning is logged through the facade; on a resolved
user the user context is set and user attributes are added. Returns the
updated context and any facade events emitted. -/
def userPhase (a : TracingArgs) (ctx : RequestContext) :
    RequestContext × List EmitLogOut :=
  if a.opts.extractUser then
    match a.identity with
    | .failed t =>
      (ctx,
        [emitLog LogLevel.warn "Failed to extract user context"
          [("error",
            JVal.s (match t with
              | .errObj e => e.message
              | .nonError _ => "Unknown"))]
          (some ctx) a.tEmit a.env])
    | .resolved none => (ctx, [])
    | .resolved (some u) =>
      let c1 := (setUserContext u.userId (some u.sessionId) (some ctx)).getD ctx
      let c2 := (addRequestAttributes
        [("user.email", optStr u.email), ("user.name", optStr u.name)]
        (some c1)).getD c1
      (c2, [])
  else (ctx, [])

/-- Fresh request record handed to the handler as ctx.request inside the
TracingContext literal: empty request id, the ids of the span, and a separate
empty attributes object. -/
def mkTracingRequest (a : TracingArgs) : RequestContext :=
  { requestId := ""
    traceId := a.spanTraceId
    spanId := a.spanSpanId
    userId := none
    sessionId := none
    method := a.method
    endpoint := a.pathname
    startTime := a.tStart
    attributes := [] }

/-- Mutable state while the handler runs: the ambient context, the handed-out
ctx.request record, the span operations so far, and facade events. -/
structure RunSt where
  ctx : RequestContext
  tcReq : RequestContext
  spanOps : List SpanOp
  otherEvents : List EmitLogOut
  deriving DecidableEq

/-- Effect of one handler action: the addAttribute and addAttributes handles
write through addRequestAttributes into the ambient context and mirror the
values onto the span; direct mutation of ctx.request touches only the
handed-out record. -/
def applyAct (st : RunSt) : HandlerAct → RunSt
  | .addAttr k v =>
    { st with
      ctx := (addRequestAttributes [(k, v)] (some st.ctx)).getD st.ctx
      spanOps := st.spanOps ++ [SpanOp.setAttr k (JVal.s (jvalStr v))] }
  | .addAttrs o =>
    { st with
      ctx := (addRequestAttributes o (some st.ctx)).getD st.ctx
      spanOps := st.spanOps ++
        o.map (fun p => SpanOp.setAttr p.1 (JVal.s (jvalStr p.2))) }
  | .mutReq o =>
    { st with
      tcReq := { st.tcReq with attributes := st.tcReq.attributes ++ o } }

deriving instance DecidableEq for Except

/-- Observable result of one invocation of a wrapped handler. -/
structure TraceResult where
  result : Except Thrown Int
  reqEvents : List EmitLogOut
  otherEvents : List EmitLogOut
  spanOps : List SpanOp
  tcReqStart : RequestContext
  tcReqEnd : RequestContext
  finalCtx : RequestContext
  deriving DecidableEq

/-- Translation of the function returned by withTracing: establishes the
context, optionally extracts the user, runs the handler, and on either
outcome records span data, emits the terminal canonical event through
emitRequestLog, and ends the span in the finally block. On a throw the error
attributes are appended and the original thrown value is re-raised. -/
def withTracingRun (handler : HandlerModel) (a : TracingArgs) : TraceResult :=
  let ctx1 := wrapperBaseContext a
  let afterUser := userPhase a ctx1
  let st0 : RunSt :=
    { ctx := afterUser.1
      tcReq := mkTracingRequest a
      spanOps := []
      otherEvents := afterUser.2 }
  let st1 := handler.acts.foldl applyAct st0
  match handler.outcome with
  | .ret status clen =>
    let ops := st1.spanOps ++
      [SpanOp.setAttr "http.status_code" (JVal.n status),
       SpanOp.setAttr "http.response_content_length"
         (match clen with
          | some v => JVal.s v
          | none => JVal.n 0)] ++
      (if status ≥ 500 then
        [SpanOp.setStatusError ("HTTP " ++ toString status)]
       else [SpanOp.setStatusOk])
    let ev := emitRequestLog status "Request completed" (some st1.ctx)
      a.tEmit a.env
    { result := Except.ok status
      reqEvents := ev.toList
      otherEvents := st1.otherEvents
      spanOps := ops ++ [SpanOp.endSpan]
      tcReqStart := mkTracingRequest a
      tcReqEnd := st1.tcReq
      finalCtx := st1.ctx }
  | .raise t =>
    let e := coerceError t
    let ops := st1.spanOps ++
      [SpanOp.recordException e,
       SpanOp.setStatusError e.message,
       SpanOp.setAttr "http.status_code" (JVal.n 500)]
    let c2 := (addRequestAttributes
      [("error.name", JVal.s e.name),
       ("error.message", JVal.s e.message),
       ("error.stack", optStr e.stack)] (some st1.ctx)).getD st1.ctx
    let ev := emitRequestLog 500 ("Request failed: " ++ e.message) (some c2)
      a.tEmit a.env
    { result := Except.error t
      reqEvents := ev.toList
      otherEvents := st1.otherEvents
      spanOps := ops ++ [SpanOp.endSpan]
      tcReqStart := mkTracingRequest a
      tcReqEnd := st1.tcReq
      finalCtx := c2 }

/-- Steps a logical unit of work can take inside its own context scope, used
for the interleaving model: attribute writes, identity setting, and terminal
emission at a given clock reading. -/
inductive UStep where
  | attrs (o : Object)
  | user (uid : String) (sid : Option String)
  | emit (status : Int) (now : Int)
  deriving DecidableEq

/-- Keys a unit step writes into the attributes of its context. -/
def stepWriteKeys : UStep → List String
  | .attrs o => o.map Prod.fst
  | _ => []

/-- Keys a list of unit steps writes into the attributes of its context. -/
def stepsWriteKeys : List UStep → List String
  | [] => []
  | u :: rest => stepWriteKeys u ++ stepsWriteKeys rest

/-- One logical branch: its own context (held by its AsyncLocalStorage run
scope) and the canonical events it has emitted. -/
structure Branch where
  ctx : RequestContext
  out : List EmitLogOut
  deriving DecidableEq

/-- Effect of one step on its own branch, through the source context
operations; emission goes through emitRequestLog against the own
store. -/
def stepBranch (env : Env) (b : Branch) : UStep → Branch
  | .attrs o => { b with ctx := (addRequestAttributes o (some b.ctx)).getD b.ctx }
  | .user uid sid =>
    { b with ctx := (setUserContext uid sid (some b.ctx)).getD b.ctx }
  | .emit status now =>
    { b with
      out := b.out ++
        (emitRequestLog status "Request completed" (some b.ctx) now env).toList }

/-- Serial execution of the steps of a unit of work against its own branch. -/
def runBranch (env : Env) (steps : List UStep) (b : Branch) : Branch :=
  steps.foldl (stepBranch env) b

/-- Shared process state for two concurrently in-flight logical units of
work: each holds its own context in its own AsyncLocalStorage branch. -/
structure TwoBranch where
  a : Branch
  b : Branch
  deriving DecidableEq

/-- Interleaved execution: a schedule is an arbitrary sequence of steps each
tagged with the branch it belongs to (true selects branch a); every step runs
against the store of its own branch, as AsyncLocalStorage restores the
store of each continuation across suspension points. -/
def runSched (env : Env) : List (Bool × UStep) → TwoBranch → TwoBranch
  | [], st => st
  | (tag, u) :: rest, st =>
    if tag then runSched env rest { st with a := stepBranch env st.a u }
    else runSched env rest { st with b := stepBranch env st.b u }

/-- Projection of a schedule onto the steps of one branch. -/
def projSteps (tag : Bool) (tr : List (Bool × UStep)) : List UStep :=
  (tr.filter (fun p => p.1 == tag)).map Prod.snd

/-- Event built by the class Logger before delivery: the level, message and
emission timestamp, then the accumulated instance context, then the
call-time additional context, later spreads shadowing earlier bindings. -/
def buildLoggerEvent (context : Object) (level : LogLevel) (message : String)
    (additional : Object) (now : Int) : Object :=
  [("level", JVal.s level.toText),
   ("message", JVal.s message),
   ("timestamp", JVal.s (toString now))] ++ context ++ additional

/-- Observable output of one Logger.emit call: console.log writes,
console.error diagnostic writes, events accepted by the remote exporter, and
whether the call propagated a failure to its caller. -/
structure LoggerOut where
  consoleLogs : List Object
  consoleErrors : List String
  ingested : List Object
  threw : Bool
  deriving DecidableEq

/-- Translation of Logger.emit: without a configured remote exporter the
event goes to console.log; with one, ingest is awaited and on a failure the
failure is caught, one diagnostic console.error entry is written and the
original event is written to console.log. No path re-raises. -/
def loggerEmit (configured : Bool) (ingestFailure : Option String)
    (context : Object) (level : LogLevel) (message : String)
    (additional : Object) (now : Int) : LoggerOut :=
  let event := buildLoggerEvent context level message additional now
  if !configured then
    { consoleLogs := [event], consoleErrors := [], ingested := [], threw := false }
  else
    match ingestFailure with
    | none =>
      { consoleLogs := [], consoleErrors := [], ingested := [event], threw := false }
    | some errText =>
      { consoleLogs := [event]
        consoleErrors := ["Failed to send log to Axiom: " ++ errText]
        ingested := []
        threw := false }

/-- Attribute pairs added to the ambient context by the identity-extraction
phase: the user email and name attributes exactly when extraction is enabled
and a user was resolved. -/
def identityAttrPairs (a : TracingArgs) : Object :=
  if a.opts.extractUser then
    match a.identity with
    | .resolved (some u) =>
      [("user.email", optStr u.email), ("user.name", optStr u.name)]
    | _ => []
  else []

/-- Sample request context used to instantiate hypotheses of the proved
theorems at concrete inputs. -/
def sampleCtx : RequestContext :=
  { requestId := "req_1"
    traceId := "trace1"
    spanId := "span1"
    userId := none
    sessionId := none
    method := "GET"
    endpoint := "/api/test"
    startTime := 0
    attributes := [] }

/-- Sample context after two writes to the same key, used as a concrete
instantiation for the last-write-wins theorem. -/
def sampleCtxN : RequestContext :=
  { sampleCtx with attributes := [("k", JVal.s "a"), ("k", JVal.s "b")] }

/-- Sample development environment without a configured exporter. -/
def wEnv : Env :=
  { development := true, otlpEndpoint := false }

/-- Sample wrapper invocation arguments used to instantiate hypotheses of
the proved theorems at concrete inputs. -/
def aSample : TracingArgs :=
  { method := "GET"
    pathname := "/api/test"
    url := "http://localhost/api/test"
    userAgent := some "vitest"
    spanTraceId := "t1"
    spanSpanId := "s1"
    genId := "req_1"
    tStart := 0
    tEmit := 50
    env := wEnv
    identity := IdentityRes.resolved none
    opts := { extractUser := true, spanName := none } }

/-- Sample handler that throws new Error with the message boom. -/
def hBoom : HandlerModel :=
  { acts := []
    outcome := Outcome.raise
      (Thrown.errObj { name := "Error", message := "boom", stack := none }) }

/-- Sample handler that returns a 404 response. -/
def h404 : HandlerModel :=
  { acts := [HandlerAct.addAttr "customField" (JVal.s "customValue")]
    outcome := Outcome.ret 404 none }

/-- Sample branch for the first concurrently running unit of work. -/
def wBranchA : Branch :=
  { ctx := { sampleCtx with requestId := "req_A" }, out := [] }

/-- Sample branch for the second concurrently running unit of work. -/
def wBranchB : Branch :=
  { ctx := { sampleCtx with requestId := "req_B", endpoint := "/api/b" }
    out := [] }

/-- Sample shared state holding the two branches. -/
def wSt : TwoBranch :=
  { a := wBranchA, b := wBranchB }

/-- Sample interleaved schedule: the two units alternate across suspension
points, each writing attributes and then emitting. -/
def wTr : List (Bool × UStep) :=
  [(true, UStep.attrs [("a1", JVal.n 1)]),
   (false, UStep.attrs [("b1", JVal.n 2)]),
   (true, UStep.emit 200 10),
   (false, UStep.emit 500 11)]

/-- Event emitted by the first branch under the sample schedule. -/
def wEv : EmitLogOut :=
  ((runSched wEnv wTr wSt).a.out).headD
    { event := [], toConsole := false, toOTel := false }

theorem getK_loop (b : Object) (k : String) (acc : Option JVal) :
    List.foldl (fun a p => if p.1 = k then some p.2 else a) acc b =
      match getK b k with
      | some v => some v
      | none => acc := by
  induction b generalizing acc with
  | nil => simp [getK]
  | cons p rest ih =>
    have hlhs := ih (if p.1 = k then some p.2 else acc)
    have hrhs := ih (if p.1 = k then some p.2 else none)
    simp only [List.foldl_cons]
    rw [hlhs]
    have hc : getK (p :: rest) k =
        match getK rest k with
        | some v => some v
        | none => if p.1 = k then some p.2 else none := by
      show List.foldl _ _ (p :: rest) = _
      rw [List.foldl_cons, hrhs]
    rw [hc]
    cases hr : getK rest k <;> by_cases h : p.1 = k <;> simp [h]

theorem getK_cons (p : String × JVal) (rest : Object) (k : String) :
    getK (p :: rest) k =
      match getK rest k with
      | some v => some v
      | none => if p.1 = k then some p.2 else none := by
  show List.foldl _ _ (p :: rest) = _
  rw [List.foldl_cons, getK_loop]

theorem getK_append (a b : Object) (k : String) :
    getK (a ++ b) k =
      match getK b k with
      | some v => some v
      | none => getK a k := by
  show List.foldl _ _ (a ++ b) = _
  rw [List.foldl_append, getK_loop]
  rfl

theorem getK_eq_lastWrite (o : Object) (k : String) :
    getK o k = lastWrite o k := by
  induction o with
  | nil => rfl
  | cons p rest ih => rw [getK_cons, lastWrite, ih]

theorem getK_eq_none_of_not_mem (o : Object) (k : String)
    (h : k ∉ o.map Prod.fst) : getK o k = none := by
  induction o with
  | nil => rfl
  | cons p rest ih =>
    rw [getK_cons, ih]
    · simp only [List.map_cons, List.mem_cons] at h
      have hne : p.1 ≠ k := fun hc => h (Or.inl hc.symm)
      simp [hne]
    · intro hm
      exact h (by simp [hm])

theorem foldl_addRequestAttribute (ws : Object) :
    ∀ c : RequestContext,
      List.foldl (fun st p => addRequestAttribute p.1 p.2 st) (some c) ws =
        some { c with attributes := c.attributes ++ ws } := by
  induction ws with
  | nil => intro c; simp
  | cons p rest ih =>
    intro c
    obtain ⟨k, v⟩ := p
    show List.foldl (fun st p => addRequestAttribute p.1 p.2 st)
      (addRequestAttribute k v (some c)) rest = _
    have hstep : addRequestAttribute k v (some c) =
        some { c with attributes := c.attributes ++ [(k, v)] } := rfl
    rw [hstep, ih]
    simp

theorem getK_buildCanonicalEvent (level : LogLevel) (message : String)
    (ctx : RequestContext) (extra : Object) (store : Option RequestContext)
    (now : Int) (k : String) :
    getK (buildCanonicalEvent level message ctx extra store now) k =
      match getK extra k with
      | some v => some v
      | none =>
        match getK ctx.attributes k with
        | some v => some v
        | none => getK (canonicalBaseFields level message ctx store now) k := by
  show getK (_ ++ _ ++ _) k = _
  rw [getK_append, getK_append]

theorem emitLog_some_event (level : LogLevel) (message : String)
    (data : Object) (ctx : RequestContext) (now : Int) (env : Env) :
    (emitLog level message data (some ctx) now env).event =
      buildCanonicalEvent level message ctx data (some ctx) now := rfl

theorem requestLogLevel_toText (status : Int) :
    (requestLogLevel status).toText =
      if status ≥ 500 then "error"
      else if status ≥ 400 then "warn" else "info" := by
  unfold requestLogLevel
  split_ifs <;> rfl

theorem countEnd_append (a b : List SpanOp) :
    countEnd (a ++ b) = countEnd a + countEnd b := by
  simp [countEnd, List.filter_append]

theorem countEnd_setAttrs (o : Object) :
    countEnd (o.map (fun p => SpanOp.setAttr p.1 (JVal.s (jvalStr p.2)))) = 0 := by
  induction o with
  | nil => rfl
  | cons p rest ih => simpa [countEnd, SpanOp.isEnd] using ih

theorem foldl_applyAct_countEnd (acts : List HandlerAct) :
    ∀ st : RunSt,
      countEnd (acts.foldl applyAct st).spanOps = countEnd st.spanOps := by
  induction acts with
  | nil => intro st; rfl
  | cons act rest ih =>
    intro st
    rw [List.foldl_cons, ih]
    cases act with
    | addAttr k v =>
      show countEnd (st.spanOps ++ [SpanOp.setAttr k (JVal.s (jvalStr v))]) = _
      rw [countEnd_append]
      rfl
    | addAttrs o =>
      show countEnd (st.spanOps ++
        o.map (fun p => SpanOp.setAttr p.1 (JVal.s (jvalStr p.2)))) = _
      rw [countEnd_append, countEnd_setAttrs]
      omega
    | mutReq o => rfl

theorem foldl_applyAct_otherEvents (acts : List HandlerAct) :
    ∀ st : RunSt,
      (acts.foldl applyAct st).otherEvents = st.otherEvents := by
  induction acts with
  | nil => intro st; rfl
  | cons act rest ih =>
    intro st
    rw [List.foldl_cons, ih]
    cases act <;> rfl

theorem foldl_applyAct_ctx (acts : List HandlerAct) :
    ∀ st : RunSt,
      (acts.foldl applyAct st).ctx =
        { st.ctx with attributes := st.ctx.attributes ++ actsAttrPairs acts } := by
  induction acts with
  | nil =>
    intro st
    simp [actsAttrPairs]
  | cons act rest ih =>
    intro st
    rw [List.foldl_cons, ih]
    cases act with
    | addAttr k v =>
      simp [applyAct, addRequestAttributes, actsAttrPairs, actAttrPairs]
    | addAttrs o =>
      simp [applyAct, addRequestAttributes, actsAttrPairs, actAttrPairs]
    | mutReq o =>
      simp [applyAct, actsAttrPairs, actAttrPairs]

theorem foldl_applyAct_filter_mutReq (acts : List HandlerAct) :
    ∀ st st' : RunSt, st.ctx = st'.ctx → st.spanOps = st'.spanOps →
      st.otherEvents = st'.otherEvents →
      (acts.foldl applyAct st).ctx =
        ((acts.filter (fun x => !(x.isMutReq))).foldl applyAct st').ctx ∧
      (acts.foldl applyAct st).spanOps =
        ((acts.filter (fun x => !(x.isMutReq))).foldl applyAct st').spanOps ∧
      (acts.foldl applyAct st).otherEvents =
        ((acts.filter (fun x => !(x.isMutReq))).foldl applyAct st').otherEvents := by
  induction acts with
  | nil =>
    intro st st' h1 h2 h3
    exact ⟨h1, h2, h3⟩
  | cons act rest ih =>
    intro st st' h1 h2 h3
    cases act with
    | mutReq o =>
      simp only [List.filter_cons, HandlerAct.isMutReq, Bool.not_true,
        List.foldl_cons, if_neg, Bool.false_eq_true, not_false_iff]
      exact ih _ st' h1 h2 h3
    | addAttr k v =>
      simp only [List.filter_cons, HandlerAct.isMutReq, Bool.not_false,
        if_pos, List.foldl_cons]
      refine ih _ _ ?_ ?_ ?_
      · show (addRequestAttributes [(k, v)] (some st.ctx)).getD st.ctx =
          (addRequestAttributes [(k, v)] (some st'.ctx)).getD st'.ctx
        rw [h1]
      · show st.spanOps ++ _ = st'.spanOps ++ _
        rw [h2]
      · exact h3
    | addAttrs o =>
      simp only [List.filter_cons, HandlerAct.isMutReq, Bool.not_false,
        if_pos, List.foldl_cons]
      refine ih _ _ ?_ ?_ ?_
      · show (addRequestAttributes o (some st.ctx)).getD st.ctx =
          (addRequestAttributes o (some st'.ctx)).getD st'.ctx
        rw [h1]
      · show st.spanOps ++ _ = st'.spanOps ++ _
        rw [h2]
      · exact h3

theorem userPhase_ctx_fields (a : TracingArgs) (ctx : RequestContext) :
    (userPhase a ctx).1.attributes = ctx.attributes ++ identityAttrPairs a ∧
    (userPhase a ctx).1.requestId = ctx.requestId ∧
    (userPhase a ctx).1.startTime = ctx.startTime := by
  unfold userPhase identityAttrPairs
  by_cases h : a.opts.extractUser
  · simp only [h, if_true]
    cases hid : a.identity with
    | failed t => simp
    | resolved u =>
      cases u with
      | none => simp
      | some usr => simp [setUserContext, addRequestAttributes]
  · simp [h]

theorem wrapperBaseContext_fields (a : TracingArgs) :
    (wrapperBaseContext a).attributes = initialRequestAttributes a ∧
    (wrapperBaseContext a).requestId = a.genId ∧
    (wrapperBaseContext a).startTime = a.tStart :=
  ⟨rfl, rfl, rfl⟩

theorem getK_identityAttrPairs_ne (a : TracingArgs) (k : String)
    (h1 : k ≠ "user.email") (h2 : k ≠ "user.name") :
    getK (identityAttrPairs a) k = none := by
  have h1' : ¬("user.email" = k) := fun e => h1 e.symm
  have h2' : ¬("user.name" = k) := fun e => h2 e.symm
  unfold identityAttrPairs
  by_cases h : a.opts.extractUser
  · simp only [h, if_true]
    cases a.identity with
    | failed t => rfl
    | resolved u =>
      cases u with
      | none => rfl
      | some usr => simp [getK_cons, getK, h1', h2']
  · simp [h, getK]

theorem getK_initialRequestAttributes_ne (a : TracingArgs) (k : String)
    (h1 : k ≠ "http.url") (h2 : k ≠ "http.user_agent") :
    getK (initialRequestAttributes a) k = none := by
  have h1' : ¬("http.url" = k) := fun e => h1 e.symm
  have h2' : ¬("http.user_agent" = k) := fun e => h2 e.symm
  simp [initialRequestAttributes, getK_cons, getK, h1', h2']

theorem withTracingRun_ret (handler : HandlerModel) (a : TracingArgs)
    (status : Int) (clen : Option String)
    (h : handler.outcome = Outcome.ret status clen) :
    (withTracingRun handler a).reqEvents =
      [emitLog (requestLogLevel status) "Request completed"
        [("status_code", JVal.n status)]
        (some (withTracingRun handler a).finalCtx) a.tEmit a.env] ∧
    (withTracingRun handler a).finalCtx.attributes =
      initialRequestAttributes a ++ identityAttrPairs a ++
        actsAttrPairs handler.acts ∧
    (withTracingRun handler a).result = Except.ok status := by
  have hh : withTracingRun handler a =
      withTracingRun { acts := handler.acts, outcome := Outcome.ret status clen } a := by
    obtain ⟨acts, outc⟩ := handler
    cases h
    rfl
  rw [hh]
  refine ⟨rfl, ?_, rfl⟩
  show ((handler.acts).foldl applyAct
    { ctx := (userPhase a (wrapperBaseContext a)).1
      tcReq := mkTracingRequest a
      spanOps := []
      otherEvents := (userPhase a (wrapperBaseContext a)).2 }).ctx.attributes = _
  rw [foldl_applyAct_ctx]
  show (userPhase a (wrapperBaseContext a)).1.attributes ++
    actsAttrPairs handler.acts = _
  rw [(userPhase_ctx_fields a _).1, (wrapperBaseContext_fields a).1]

theorem withTracingRun_raise (handler : HandlerModel) (a : TracingArgs)
    (t : Thrown) (h : handler.outcome = Outcome.raise t) :
    (withTracingRun handler a).reqEvents =
      [emitLog (requestLogLevel 500)
        ("Request failed: " ++ (coerceError t).message)
        [("status_code", JVal.n 500)]
        (some (withTracingRun handler a).finalCtx) a.tEmit a.env] ∧
    (withTracingRun handler a).finalCtx.attributes =
      initialRequestAttributes a ++ identityAttrPairs a ++
        actsAttrPairs handler.acts ++
        [("error.name", JVal.s (coerceError t).name),
         ("error.message", JVal.s (coerceError t).message),
         ("error.stack", optStr (coerceError t).stack)] ∧
    (withTracingRun handler a).result = Except.error t := by
  have hh : withTracingRun handler a =
      withTracingRun { acts := handler.acts, outcome := Outcome.raise t } a := by
    obtain ⟨acts, outc⟩ := handler
    cases h
    rfl
  rw [hh]
  refine ⟨rfl, ?_, rfl⟩
  show (((handler.acts).foldl applyAct
    { ctx := (userPhase a (wrapperBaseContext a)).1
      tcReq := mkTracingRequest a
      spanOps := []
      otherEvents := (userPhase a (wrapperBaseContext a)).2 }).ctx.attributes ++
      [("error.name", JVal.s (coerceError t).name),
       ("error.message", JVal.s (coerceError t).message),
       ("error.stack", optStr (coerceError t).stack)]) = _
  rw [foldl_applyAct_ctx]
  show ((userPhase a (wrapperBaseContext a)).1.attributes ++
    actsAttrPairs handler.acts) ++ _ = _
  rw [(userPhase_ctx_fields a _).1, (wrapperBaseContext_fields a).1]

/-- C3: context scopes nest strictly LIFO. Inside runInContext A of
runInContext B, the current context observed in the inner scope is B; after
the inner run returns, the context observed is A again; within any single
scope exactly one context is current, and withRequestContext installs
exactly the context it creates. -/
theorem context_scopes_nest_lifo :
    (∀ (A B : RequestContext) (s : Option RequestContext),
      runInContext A (alsBind (runInContext B alsGet)
        (fun inner => alsBind alsGet (fun outer => alsPure (inner, outer)))) s
        = (some B, some A)) ∧
    (∀ (ctx : RequestContext) (s : Option RequestContext),
      runInContext ctx alsGet s = some ctx) ∧
    (∀ (options : CreateRequestContextOptions) (tc : Option (String × String))
        (g : String) (t : Int) (s : Option RequestContext),
      withRequestContextM options tc g t alsGet s
        = some (createRequestContext options tc g t)) :=
  ⟨fun _ _ _ => rfl, fun _ _ => rfl, fun _ _ _ _ _ => rfl⟩

/-- C4: event building merges base fields, then accumulated attributes, then
call-time extra fields, with later bindings winning on key collision; hence
after any sequence of attribute writes through addRequestAttribute within a
scope, the emitted event holds exactly the last-written value for a key the
extra fields do not rebind. -/
theorem event_merge_order_last_write_wins :
    (∀ (level : LogLevel) (message : String) (ctx : RequestContext)
        (extra : Object) (store : Option RequestContext) (now : Int)
        (k : String),
      getK (buildCanonicalEvent level message ctx extra store now) k =
        match getK extra k with
        | some v => some v
        | none =>
          match getK ctx.attributes k with
          | some v => some v
          | none => getK (canonicalBaseFields level message ctx store now) k) ∧
    (∀ (ctx0 ctxN : RequestContext) (ws : Object) (k : String) (v : JVal)
        (level : LogLevel) (message : String) (extra : Object) (now : Int),
      List.foldl (fun st p => addRequestAttribute p.1 p.2 st) (some ctx0) ws
        = some ctxN →
      lastWrite ws k = some v →
      getK extra k = none →
      getK (buildCanonicalEvent level message ctxN extra (some ctxN) now) k
        = some v) := by
  constructor
  · intro level message ctx extra store now k
    show getK (canonicalBaseFields level message ctx store now ++
      ctx.attributes ++ extra) k = _
    rw [getK_append, getK_append]
  · intro ctx0 ctxN ws k v level message extra now hfold hlast hextra
    rw [foldl_addRequestAttribute] at hfold
    have hctx : ctxN = { ctx0 with attributes := ctx0.attributes ++ ws } :=
      (Option.some_inj.mp hfold).symm
    show getK (canonicalBaseFields level message ctxN (some ctxN) now ++
      ctxN.attributes ++ extra) k = some v
    rw [getK_append, hextra, getK_append]
    have hws : getK ws k = some v := by rw [getK_eq_lastWrite]; exact hlast
    have hattrs : getK ctxN.attributes k = some v := by
      rw [hctx]
      show getK (ctx0.attributes ++ ws) k = some v
      rw [getK_append, hws]
    rw [hattrs]

/-- Witness for the last-write-wins theorem at a concrete write sequence:
two writes to the key k, the event holds the second value. -/
theorem event_merge_order_last_write_wins_witness :
    getK (buildCanonicalEvent LogLevel.info "m" sampleCtxN [] (some sampleCtxN)
      5) "k" = some (JVal.s "b") := by
  refine event_merge_order_last_write_wins.2 sampleCtx sampleCtxN
    [("k", JVal.s "a"), ("k", JVal.s "b")] "k" (JVal.s "b") LogLevel.info "m"
    [] 5 ?_ ?_ ?_
  · decide
  · decide
  · decide

/-- C6: every mutation or logging call outside any active context scope is a
silent no-op that cannot raise; emitLog without a context still emits a
degraded console event carrying the sentinel identity and correlation
values. -/
theorem outside_scope_noop_and_degraded_event :
    (∀ (k : String) (v : JVal), addRequestAttribute k v none = none) ∧
    (∀ o : Object, addRequestAttributes o none = none) ∧
    (∀ (uid : String) (sid : Option String), setUserContext uid sid none = none) ∧
    (∀ (level : LogLevel) (message : String) (data : Object) (now : Int)
        (env : Env),
      (emitLog level message data none now env).toConsole = true ∧
      (emitLog level message data none now env).toOTel = false) ∧
    (∀ (level : LogLevel) (message : String) (data : Object) (now : Int)
        (env : Env),
      "request_id" ∉ data.map Prod.fst →
      "trace_id" ∉ data.map Prod.fst →
      "span_id" ∉ data.map Prod.fst →
      "method" ∉ data.map Prod.fst →
      "endpoint" ∉ data.map Prod.fst →
      getK (emitLog level message data none now env).event "request_id"
          = some (JVal.s "no-context") ∧
      getK (emitLog level message data none now env).event "trace_id"
          = some (JVal.s "no-trace") ∧
      getK (emitLog level message data none now env).event "span_id"
          = some (JVal.s "no-span") ∧
      getK (emitLog level message data none now env).event "method"
          = some (JVal.s "N/A") ∧
      getK (emitLog level message data none now env).event "endpoint"
          = some (JVal.s "N/A")) := by
  refine ⟨fun _ _ => rfl, fun _ => rfl, fun _ _ => rfl,
    fun _ _ _ _ _ => ⟨rfl, rfl⟩, ?_⟩
  intro level message data now env h1 h2 h3 h4 h5
  have hev : (emitLog level message data none now env).event =
      simpleNoContextEvent level message data now := rfl
  rw [hev]
  show getK (_ ++ data) "request_id" = _ ∧ getK (_ ++ data) "trace_id" = _ ∧
    getK (_ ++ data) "span_id" = _ ∧ getK (_ ++ data) "method" = _ ∧
    getK (_ ++ data) "endpoint" = _
  rw [getK_append, getK_append, getK_append, getK_append, getK_append,
    getK_eq_none_of_not_mem data _ h1, getK_eq_none_of_not_mem data _ h2,
    getK_eq_none_of_not_mem data _ h3, getK_eq_none_of_not_mem data _ h4,
    getK_eq_none_of_not_mem data _ h5]
  refine ⟨?_, ?_, ?_, ?_, ?_⟩ <;> simp [getK_cons, getK]

/-- Witness for the outside-scope theorem at a concrete data object that
rebinds none of the sentinel keys. -/
theorem outside_scope_noop_and_degraded_event_witness :
    getK (emitLog LogLevel.info "hello" [("x", JVal.n 1)] none 7
        { development := true, otlpEndpoint := false }).event "request_id"
      = some (JVal.s "no-context") ∧
    getK (emitLog LogLevel.info "hello" [("x", JVal.n 1)] none 7
        { development := true, otlpEndpoint := false }).event "endpoint"
      = some (JVal.s "N/A") := by
  have h := outside_scope_noop_and_degraded_event.2.2.2.2 LogLevel.info
    "hello" [("x", JVal.n 1)] 7 { development := true, otlpEndpoint := false }
    (by decide) (by decide) (by decide) (by decide) (by decide)
  exact ⟨h.1, h.2.2.2.2⟩

/-- C8: sink selection policy of emitLog. A configured remote exporter is
always written to regardless of development mode; the console sink is always
written in development, in particular in development without a configured
exporter; and in development with a configured exporter both sinks fire for
the same event. -/
theorem sink_selection_policy :
    (∀ (level : LogLevel) (message : String) (data : Object)
        (ctx : RequestContext) (now : Int) (env : Env),
      env.otlpEndpoint = true →
      (emitLog level message data (some ctx) now env).toOTel = true) ∧
    (∀ (level : LogLevel) (message : String) (data : Object)
        (ctx : RequestContext) (now : Int) (env : Env),
      env.development = true →
      (emitLog level message data (some ctx) now env).toConsole = true) ∧
    (∀ (level : LogLevel) (message : String) (data : Object)
        (ctx : RequestContext) (now : Int),
      (emitLog level message data (some ctx) now
        { development := true, otlpEndpoint := false }).toConsole = true) ∧
    (∀ (level : LogLevel) (message : String) (data : Object)
        (ctx : RequestContext) (now : Int),
      (emitLog level message data (some ctx) now
        { development := true, otlpEndpoint := true }).toConsole = true ∧
      (emitLog level message data (some ctx) now
        { development := true, otlpEndpoint := true }).toOTel = true) := by
  refine ⟨?_, ?_, ?_, ?_⟩
  · rintro level message data ctx now ⟨d, o⟩ ho
    cases ho
    cases d <;> rfl
  · rintro level message data ctx now ⟨d, o⟩ hd
    cases hd
    cases o <;> rfl
  · intro level message data ctx now; rfl
  · intro level message data ctx now; exact ⟨rfl, rfl⟩

/-- Witness for the sink policy theorem: with the exporter configured in
production mode the OTLP sink fires, and in development the console fires. -/
theorem sink_selection_policy_witness :
    (emitLog LogLevel.info "m" [] (some sampleCtx) 3
      { development := false, otlpEndpoint := true }).toOTel = true ∧
    (emitLog LogLevel.info "m" [] (some sampleCtx) 3
      { development := true, otlpEndpoint := true }).toConsole = true :=
  ⟨sink_selection_policy.1 LogLevel.info "m" [] sampleCtx 3
      { development := false, otlpEndpoint := true } rfl,
   sink_selection_policy.2.1 LogLevel.info "m" [] sampleCtx 3
      { development := true, otlpEndpoint := true } rfl⟩

/-- C9: the reported duration is the clock reading at emission minus the
context creation time (createRequestContext stamps the creation clock as
startTime), it is non-negative under a monotone clock, it appears as the
duration_ms field of the built event, creation at 0 with emission at 50
yields 50, and outside any scope the reported duration is 0. -/
theorem duration_elapsed_nonneg :
    (∀ (options : CreateRequestContextOptions) (tc : Option (String × String))
        (g : String) (t : Int),
      (createRequestContext options tc g t).startTime = t) ∧
    (∀ (ctx : RequestContext) (now : Int), ctx.startTime ≤ now →
      getRequestDuration (some ctx) now = now - ctx.startTime ∧
      0 ≤ getRequestDuration (some ctx) now) ∧
    (∀ now : Int, getRequestDuration none now = 0) ∧
    (∀ (level : LogLevel) (message : String) (ctx : RequestContext)
        (extra : Object) (now : Int),
      getK extra "duration_ms" = none →
      "duration_ms" ∉ ctx.attributes.map Prod.fst →
      getK (buildCanonicalEvent level message ctx extra (some ctx) now)
        "duration_ms" = some (JVal.n (now - ctx.startTime))) ∧
    (∀ ctx : RequestContext, ctx.startTime = 0 →
      getRequestDuration (some ctx) 50 = 50) := by
  refine ⟨fun _ _ _ _ => rfl, ?_, fun _ => rfl, ?_, ?_⟩
  · intro ctx now h
    refine ⟨rfl, ?_⟩
    show (0 : Int) ≤ now - ctx.startTime
    omega
  · intro level message ctx extra now hextra hattrs
    show getK (canonicalBaseFields level message ctx (some ctx) now ++
      ctx.attributes ++ extra) "duration_ms" = _
    rw [getK_append, hextra, getK_append,
      getK_eq_none_of_not_mem ctx.attributes _ hattrs]
    simp [canonicalBaseFields, getK_cons, getK, getRequestDuration]
  · intro ctx h
    show 50 - ctx.startTime = 50
    omega

/-- Witness for the duration theorem: a context created at 0 with emission at
50 reports 50, and the built event carries it. -/
theorem duration_elapsed_nonneg_witness :
    (getRequestDuration (some sampleCtx) 50 = 50 ∧
      0 ≤ getRequestDuration (some sampleCtx) 50) ∧
    getK (buildCanonicalEvent LogLevel.info "m" sampleCtx [] (some sampleCtx)
      50) "duration_ms" = some (JVal.n 50) :=
  ⟨duration_elapsed_nonneg.2.1 sampleCtx 50 (by decide),
   duration_elapsed_nonneg.2.2.2.1 LogLevel.info "m" sampleCtx [] 50
     (by decide) (by decide)⟩

/-- C1: for every handler and every inbound request, the wrapped handler
emits exactly one terminal canonical event through emitRequestLog and ends
the span exactly once, on every exit path; on a throw the original thrown
value is re-raised unmodified after being recorded on the span, and on a
return the handler response status passes through unchanged. -/
theorem wrapper_emits_once_ends_once :
    ∀ (handler : HandlerModel) (a : TracingArgs),
      (withTracingRun handler a).reqEvents.length = 1 ∧
      countEnd (withTracingRun handler a).spanOps = 1 ∧
      (∀ t : Thrown, handler.outcome = Outcome.raise t →
        (withTracingRun handler a).result = Except.error t ∧
        SpanOp.recordException (coerceError t) ∈
          (withTracingRun handler a).spanOps) ∧
      (∀ (status : Int) (clen : Option String),
        handler.outcome = Outcome.ret status clen →
        (withTracingRun handler a).result = Except.ok status) := by
  intro handler a
  obtain ⟨acts, outc⟩ := handler
  cases outc with
  | ret status clen =>
    refine ⟨rfl, ?_, ?_, ?_⟩
    · show countEnd ((acts.foldl applyAct _).spanOps ++ _ ++ _ ++
        [SpanOp.endSpan]) = 1
      rw [countEnd_append, countEnd_append, countEnd_append,
        foldl_applyAct_countEnd]
      have hif : countEnd
          (if status ≥ 500 then
            [SpanOp.setStatusError ("HTTP " ++ toString status)]
           else [SpanOp.setStatusOk]) = 0 := by
        split_ifs <;> rfl
      rw [hif]
      rfl
    · intro t ht
      cases ht
    · intro status' clen' h'
      cases h'
      rfl
  | raise t =>
    refine ⟨rfl, ?_, ?_, ?_⟩
    · show countEnd ((acts.foldl applyAct _).spanOps ++ _ ++
        [SpanOp.endSpan]) = 1
      rw [countEnd_append, countEnd_append, foldl_applyAct_countEnd]
      rfl
    · intro t' ht
      cases ht
      refine ⟨rfl, ?_⟩
      show SpanOp.recordException (coerceError t) ∈
        (acts.foldl applyAct _).spanOps ++
          [SpanOp.recordException (coerceError t),
           SpanOp.setStatusError (coerceError t).message,
           SpanOp.setAttr "http.status_code" (JVal.n 500)] ++
          [SpanOp.endSpan]
      simp
    · intro status' clen' h'
      cases h'

/-- Witness for the exactly-once wrapper theorem at a concrete throwing
handler: the boom error is re-raised unmodified and recorded on the span. -/
theorem wrapper_emits_once_ends_once_witness :
    (withTracingRun hBoom aSample).result =
      Except.error (Thrown.errObj
        { name := "Error", message := "boom", stack := none }) ∧
    SpanOp.recordException { name := "Error", message := "boom", stack := none }
      ∈ (withTracingRun hBoom aSample).spanOps := by
  have h := (wrapper_emits_once_ends_once hBoom aSample).2.2.1
    (Thrown.errObj { name := "Error", message := "boom", stack := none }) rfl
  exact ⟨h.1, h.2⟩

/-- C5: the terminal event severity is tiered by outcome status (at least 500
gives error, at least 400 gives warn, otherwise info) with the status code
recorded in the event; a handler throwing new Error with message boom yields
one event at level error with status_code 500 and the error.message
attribute boom, and the original exception is re-raised. -/
theorem severity_tiering_and_error_capture :
    (∀ (handler : HandlerModel) (a : TracingArgs) (status : Int)
        (clen : Option String),
      handler.outcome = Outcome.ret status clen →
      "level" ∉ actsWriteKeys handler.acts →
      (withTracingRun handler a).reqEvents.map
          (fun ev => getK ev.event "status_code") = [some (JVal.n status)] ∧
      (withTracingRun handler a).reqEvents.map
          (fun ev => getK ev.event "level") =
        [some (JVal.s (if status ≥ 500 then "error"
          else if status ≥ 400 then "warn" else "info"))]) ∧
    (∀ (handler : HandlerModel) (a : TracingArgs) (t : Thrown),
      handler.outcome = Outcome.raise t →
      "level" ∉ actsWriteKeys handler.acts →
      (withTracingRun handler a).reqEvents.map
          (fun ev => getK ev.event "level") = [some (JVal.s "error")] ∧
      (withTracingRun handler a).reqEvents.map
          (fun ev => getK ev.event "status_code") = [some (JVal.n 500)] ∧
      (withTracingRun handler a).reqEvents.map
          (fun ev => getK ev.event "error.message") =
        [some (JVal.s (coerceError t).message)] ∧
      (withTracingRun handler a).result = Except.error t) := by
  constructor
  · intro handler a status clen h hlv
    obtain ⟨hreq, hattrs, hres⟩ := withTracingRun_ret handler a status clen h
    rw [hreq]
    simp only [List.map_cons, List.map_nil, emitLog_some_event,
      getK_buildCanonicalEvent]
    have hattrsLv : getK (withTracingRun handler a).finalCtx.attributes "level"
        = none := by
      rw [hattrs, getK_append, getK_append,
        getK_eq_none_of_not_mem _ _ hlv,
        getK_identityAttrPairs_ne a "level" (by decide) (by decide),
        getK_initialRequestAttributes_ne a "level" (by decide) (by decide)]
    constructor
    · simp [getK_cons, getK]
    · have hdata : getK [("status_code", JVal.n status)] "level" = none := by
        simp [getK_cons, getK]
      rw [hdata, hattrsLv]
      have hbase : getK (canonicalBaseFields (requestLogLevel status)
          "Request completed" (withTracingRun handler a).finalCtx
          (some (withTracingRun handler a).finalCtx) a.tEmit) "level" =
          some (JVal.s (requestLogLevel status).toText) := by
        simp [canonicalBaseFields, getK_cons, getK]
      simp only [hbase, requestLogLevel_toText]
  · intro handler a t h hlv
    obtain ⟨hreq, hattrs, hres⟩ := withTracingRun_raise handler a t h
    rw [hreq]
    simp only [List.map_cons, List.map_nil, emitLog_some_event,
      getK_buildCanonicalEvent]
    have hattrsLv : getK (withTracingRun handler a).finalCtx.attributes "level"
        = none := by
      rw [hattrs, getK_append, getK_append, getK_append,
        getK_eq_none_of_not_mem _ _ hlv,
        getK_identityAttrPairs_ne a "level" (by decide) (by decide),
        getK_initialRequestAttributes_ne a "level" (by decide) (by decide)]
      simp [getK_cons, getK]
    have hattrsEm : getK (withTracingRun handler a).finalCtx.attributes
        "error.message" = some (JVal.s (coerceError t).message) := by
      rw [hattrs, getK_append]
      simp [getK_cons, getK]
    refine ⟨?_, ?_, ?_, hres⟩
    · have hdata : getK [("status_code", JVal.n 500)] "level" = none := by
        simp [getK_cons, getK]
      rw [hdata, hattrsLv]
      have hbase : getK (canonicalBaseFields (requestLogLevel 500)
          ("Request failed: " ++ (coerceError t).message)
          (withTracingRun handler a).finalCtx
          (some (withTracingRun handler a).finalCtx) a.tEmit) "level" =
          some (JVal.s "error") := by
        simp [canonicalBaseFields, getK_cons, getK, requestLogLevel,
          LogLevel.toText]
      simp only [hbase]
    · simp [getK_cons, getK]
    · have hdata : getK [("status_code", JVal.n 500)] "error.message" = none := by
        simp [getK_cons, getK]
      rw [hdata, hattrsEm]

/-- Witness for the severity tiering theorem: a 404 handler yields one event
with level warn and status_code 404, and the event of the boom handler carries
error.message boom. -/
theorem severity_tiering_and_error_capture_witness :
    (withTracingRun h404 aSample).reqEvents.map
        (fun ev => getK ev.event "status_code") = [some (JVal.n 404)] ∧
    (withTracingRun h404 aSample).reqEvents.map
        (fun ev => getK ev.event "level") = [some (JVal.s "warn")] ∧
    (withTracingRun hBoom aSample).reqEvents.map
        (fun ev => getK ev.event "error.message") = [some (JVal.s "boom")] := by
  have hr := severity_tiering_and_error_capture.1 h404 aSample 404 none rfl
    (by decide)
  have hb := severity_tiering_and_error_capture.2 hBoom aSample
    (Thrown.errObj { name := "Error", message := "boom", stack := none }) rfl
    (by decide)
  refine ⟨hr.1, ?_, ?_⟩
  · have := hr.2
    simpa using this
  · have := hb.2.2.1
    simpa using this

/-- C7: remote delivery failure is contained in Logger.emit: no call
propagates a failure to its caller, and on an ingest failure the original
event is still written to the console fallback sink together with exactly
one additional diagnostic entry, so the event is never lost. -/
theorem exporter_failure_contained :
    (∀ (configured : Bool) (failure : Option String) (context : Object)
        (level : LogLevel) (message : String) (additional : Object)
        (now : Int),
      (loggerEmit configured failure context level message additional
        now).threw = false) ∧
    (∀ (errText : String) (context : Object) (level : LogLevel)
        (message : String) (additional : Object) (now : Int),
      (loggerEmit true (some errText) context level message additional
          now).consoleLogs
        = [buildLoggerEvent context level message additional now] ∧
      (loggerEmit true (some errText) context level message additional
          now).consoleErrors.length = 1) := by
  constructor
  · intro configured failure context level message additional now
    cases configured with
    | false => rfl
    | true => cases failure <;> rfl
  · intro errText context level message additional now
    exact ⟨rfl, rfl⟩

/-- C10: the request record handed to the handler inside the TracingContext
is freshly constructed and detached: its request id is the empty string and
its attributes start as a separate empty object, and erasing every direct
mutation of that record from a handler leaves the emitted events, span
operations, result and final ambient context unchanged. -/
theorem tracing_request_detached :
    ∀ (handler : HandlerModel) (a : TracingArgs),
      (withTracingRun handler a).tcReqStart.requestId = "" ∧
      (withTracingRun handler a).tcReqStart.attributes = [] ∧
      (withTracingRun handler a).reqEvents =
        (withTracingRun (pruneMutReq handler) a).reqEvents ∧
      (withTracingRun handler a).otherEvents =
        (withTracingRun (pruneMutReq handler) a).otherEvents ∧
      (withTracingRun handler a).spanOps =
        (withTracingRun (pruneMutReq handler) a).spanOps ∧
      (withTracingRun handler a).result =
        (withTracingRun (pruneMutReq handler) a).result ∧
      (withTracingRun handler a).finalCtx =
        (withTracingRun (pruneMutReq handler) a).finalCtx := by
  intro handler a
  obtain ⟨acts, outc⟩ := handler
  obtain ⟨hc, hs, ho⟩ := foldl_applyAct_filter_mutReq acts
    { ctx := (userPhase a (wrapperBaseContext a)).1
      tcReq := mkTracingRequest a
      spanOps := []
      otherEvents := (userPhase a (wrapperBaseContext a)).2 }
    { ctx := (userPhase a (wrapperBaseContext a)).1
      tcReq := mkTracingRequest a
      spanOps := []
      otherEvents := (userPhase a (wrapperBaseContext a)).2 }
    rfl rfl rfl
  cases outc with
  | ret status clen =>
    refine ⟨rfl, rfl, ?_, ?_, ?_, ?_, ?_⟩ <;>
      simp only [withTracingRun, pruneMutReq, hc, hs, ho]
  | raise t =>
    refine ⟨rfl, rfl, ?_, ?_, ?_, ?_, ?_⟩ <;>
      simp only [withTracingRun, pruneMutReq, hc, hs, ho]

theorem runSched_projA (env : Env) (tr : List (Bool × UStep)) :
    ∀ st : TwoBranch,
      (runSched env tr st).a = runBranch env (projSteps true tr) st.a := by
  induction tr with
  | nil => intro st; rfl
  | cons p rest ih =>
    intro st
    obtain ⟨tag, u⟩ := p
    cases tag with
    | false =>
      show (runSched env rest { st with b := stepBranch env st.b u }).a = _
      rw [ih]
      simp [projSteps]
    | true =>
      show (runSched env rest { st with a := stepBranch env st.a u }).a = _
      rw [ih]
      simp [projSteps, runBranch]

theorem runSched_projB (env : Env) (tr : List (Bool × UStep)) :
    ∀ st : TwoBranch,
      (runSched env tr st).b = runBranch env (projSteps false tr) st.b := by
  induction tr with
  | nil => intro st; rfl
  | cons p rest ih =>
    intro st
    obtain ⟨tag, u⟩ := p
    cases tag with
    | false =>
      show (runSched env rest { st with b := stepBranch env st.b u }).b = _
      rw [ih]
      simp [projSteps, runBranch]
    | true =>
      show (runSched env rest { st with a := stepBranch env st.a u }).b = _
      rw [ih]
      simp [projSteps]

theorem stepBranch_requestId (env : Env) (u : UStep) (b : Branch) :
    (stepBranch env b u).ctx.requestId = b.ctx.requestId := by
  cases u <;> rfl

theorem runBranch_requestId (env : Env) (steps : List UStep) :
    ∀ b : Branch,
      (runBranch env steps b).ctx.requestId = b.ctx.requestId := by
  induction steps with
  | nil => intro b; rfl
  | cons u rest ih =>
    intro b
    show (runBranch env rest (stepBranch env b u)).ctx.requestId = _
    rw [ih, stepBranch_requestId]

theorem runBranch_out (env : Env) (steps : List UStep) :
    ∀ b : Branch,
      "request_id" ∉ stepsWriteKeys steps →
      "request_id" ∉ b.ctx.attributes.map Prod.fst →
      ∀ ev ∈ (runBranch env steps b).out,
        ev ∈ b.out ∨
          getK ev.event "request_id" = some (JVal.s b.ctx.requestId) := by
  induction steps with
  | nil => intro b _ _ ev hev; exact Or.inl hev
  | cons u rest ih =>
    intro b hks hbk ev hev
    have hsplit : ("request_id" ∉ stepWriteKeys u) ∧
        ("request_id" ∉ stepsWriteKeys rest) := by
      constructor <;> intro hm <;>
        exact hks (by
          show "request_id" ∈ stepWriteKeys u ++ stepsWriteKeys rest
          rw [List.mem_append]
          first
          | exact Or.inl hm
          | exact Or.inr hm)
    cases u with
    | attrs o =>
      have hb' : "request_id" ∉
          (stepBranch env b (UStep.attrs o)).ctx.attributes.map Prod.fst := by
        show "request_id" ∉ (b.ctx.attributes ++ o).map Prod.fst
        rw [List.map_append, List.mem_append]
        rintro (h | h)
        · exact hbk h
        · exact hsplit.1 h
      have hrec := ih (stepBranch env b (UStep.attrs o)) hsplit.2 hb' ev hev
      rcases hrec with h | h
      · exact Or.inl h
      · right
        rw [stepBranch_requestId] at h
        exact h
    | user uid sid =>
      have hb' : "request_id" ∉
          (stepBranch env b (UStep.user uid sid)).ctx.attributes.map Prod.fst := by
        show "request_id" ∉ b.ctx.attributes.map Prod.fst
        exact hbk
      have hrec := ih (stepBranch env b (UStep.user uid sid)) hsplit.2 hb' ev hev
      rcases hrec with h | h
      · exact Or.inl h
      · right
        rw [stepBranch_requestId] at h
        exact h
    | emit status now =>
      have hb' : "request_id" ∉
          (stepBranch env b (UStep.emit status now)).ctx.attributes.map Prod.fst := by
        show "request_id" ∉ b.ctx.attributes.map Prod.fst
        exact hbk
      have hrec := ih (stepBranch env b (UStep.emit status now)) hsplit.2 hb' ev hev
      rcases hrec with h | h
      · have hmem : ev ∈ b.out ++ [emitLog (requestLogLevel status)
            "Request completed" [("status_code", JVal.n status)] (some b.ctx)
            now env] := h
        rw [List.mem_append] at hmem
        rcases hmem with h1 | h2
        · exact Or.inl h1
        · right
          have h2' : ev = emitLog (requestLogLevel status) "Request completed"
              [("status_code", JVal.n status)] (some b.ctx) now env := by
            simpa using h2
          rw [h2', emitLog_some_event, getK_buildCanonicalEvent]
          have hdata : getK [("status_code", JVal.n status)] "request_id"
              = none := by simp [getK_cons, getK]
          rw [hdata, getK_eq_none_of_not_mem b.ctx.attributes _ hbk]
          simp [canonicalBaseFields, getK_cons, getK]
      · right
        rw [stepBranch_requestId] at h
        exact h

/-- C2: two concurrently executing logical units of work with their own
context scopes never cross-contaminate: under any interleaved schedule each
branch evolves exactly as its own serial execution (independently of the
steps of the other branch), its request id is preserved, and every canonical
event it emits carries its own request id and never that of the other branch. -/
theorem concurrent_units_isolated :
    ∀ (env : Env) (tr : List (Bool × UStep)) (st : TwoBranch),
      (runSched env tr st).a = runBranch env (projSteps true tr) st.a ∧
      (runSched env tr st).b = runBranch env (projSteps false tr) st.b ∧
      (runSched env tr st).a.ctx.requestId = st.a.ctx.requestId ∧
      ("request_id" ∉ stepsWriteKeys (projSteps true tr) →
        "request_id" ∉ st.a.ctx.attributes.map Prod.fst →
        st.a.out = [] →
        st.a.ctx.requestId ≠ st.b.ctx.requestId →
        ∀ ev ∈ (runSched env tr st).a.out,
          getK ev.event "request_id" = some (JVal.s st.a.ctx.requestId) ∧
          getK ev.event "request_id" ≠ some (JVal.s st.b.ctx.requestId)) := by
  intro env tr st
  refine ⟨runSched_projA env tr st, runSched_projB env tr st, ?_, ?_⟩
  · rw [runSched_projA]
    exact runBranch_requestId env _ st.a
  · intro hks hbk hout hne ev hev
    rw [runSched_projA] at hev
    have hcase := runBranch_out env (projSteps true tr) st.a hks hbk ev hev
    rcases hcase with h | h
    · rw [hout] at h
      cases h
    · refine ⟨h, ?_⟩
      rw [h]
      intro hcontra
      apply hne
      simpa using hcontra

/-- Witness for the isolation theorem: under the sample interleaved schedule
the event emitted by the first unit carries its own request id req_A and not
the id req_B of the other unit. -/
theorem concurrent_units_isolated_witness :
    getK wEv.event "request_id" = some (JVal.s "req_A") ∧
    getK wEv.event "request_id" ≠ some (JVal.s "req_B") := by
  have h := (concurrent_units_isolated wEnv wTr wSt).2.2.2
    (by decide) (by decide) (by decide) (by decide) wEv (by decide)
  exact ⟨h.1, h.2⟩

end Insurflow
